import Mathlib

/-!
Verification of the Prompt-Pal scoring-adjustment and hint-economy engine.

The embedded definitions follow the repository's source:
* the Zustand game store (`createDefaultProgress`, `updateLevelProgress`,
  `loseLife`) from `src/features/game/store.ts`;
* the level data (`LEVELS`) from `src/features/levels/data.ts` (ids,
  difficulties and passing scores; titles, image URLs, keyword lists, hint
  texts and estimated times are UI content never read by the logic verified
  here and are omitted);
* the submit handler (`handleGenerate`) from `src/app/game/[id].tsx`.

The `NanoAssistant` module (`getPenaltyDetails` and the hint ledger) is not
part of the source tree; only its call sites are.  Those definitions are
modelled from the specification and are marked as such in their doc
comments.

Scores and lives are JavaScript numbers that only ever hold integral values
in this code (raw scores are integers, penalties are products of integers,
lives are decremented integers clamped at zero), so they are embedded as
`Int`.
-/

/-- Difficulty tiers, ordered easy < medium < hard < expert
(`src/features/levels/types.ts`). -/
inductive Difficulty where
  | easy
  | medium
  | hard
  | expert
deriving DecidableEq, Repr

/-- Modelled from the spec: the per-hint penalty lookup of the
PenaltyCalculator (the `NanoAssistant` implementation is not under `src/`).
Harder difficulty gives a smaller per-hint penalty: easy 8, medium 6,
hard 4, expert 3. -/
def penaltyPerHintFor : Difficulty → Int
  | Difficulty.easy => 8
  | Difficulty.medium => 6
  | Difficulty.hard => 4
  | Difficulty.expert => 3

/-- The breakdown returned by `NanoAssistant.getPenaltyDetails`, as consumed
by `handleGenerate` (`finalScore`, `penaltyPoints`, `hintsUsed`). -/
structure PenaltyDetails where
  finalScore : Int
  penaltyPoints : Int
  hintsUsed : Nat
  penaltyPerHint : Int
deriving DecidableEq, Repr

/-- Modelled from the spec: `NanoAssistant.getPenaltyDetails` is not under
`src/`; only its call site in `handleGenerate` is.  Following the spec's
algorithm: `penaltyPoints = min(hintsUsed * penaltyPerHint, rawScore)` and
`finalScore = clamp(rawScore - penaltyPoints, 0, 100)`.  The source call
passes the level id (used internally to read the hint ledger's usage count)
and the passing score; here the usage count is the explicit `hintsUsed`
argument, and `passingScore` is not consulted by the formula. -/
def getPenaltyDetails (rawScore : Int) (passingScore : Int)
    (difficulty : Difficulty) (hintsUsed : Nat) : PenaltyDetails :=
  let pph := penaltyPerHintFor difficulty
  let penaltyPoints := min ((hintsUsed : Int) * pph) rawScore
  let finalScore := max 0 (min 100 (rawScore - penaltyPoints))
  { finalScore := finalScore
    penaltyPoints := penaltyPoints
    hintsUsed := hintsUsed
    penaltyPerHint := pph }

/-- The pass/fail decision of `handleGenerate`
(`if (finalScore >= level.passingScore)`). -/
def attemptPassed (finalScore passingScore : Int) : Bool :=
  finalScore ≥ passingScore

example : (getPenaltyDetails 90 60 Difficulty.easy 2).finalScore = 74 := by decide
example : (getPenaltyDetails 60 85 Difficulty.expert 5).finalScore = 45 := by decide
example : (getPenaltyDetails 20 60 Difficulty.easy 10).penaltyPoints = 20 := by decide
example : (getPenaltyDetails 85 75 Difficulty.easy 2).finalScore = 69 := by decide

/-- A level as read by the game logic (`src/features/levels/types.ts`).
The source interface also carries `title`, `targetImageUrl`,
`hiddenPromptKeywords`, `hints` and `estimatedTime`; those are UI content
that the store and scoring logic never read, so they are omitted here. -/
structure Level where
  id : String
  difficulty : Difficulty
  passingScore : Int
deriving DecidableEq, Repr

/-- The curated level sequence from `src/features/levels/data.ts`:
five easy (passing 60), five medium (passing 70), five hard (passing 80)
and five expert (passing 85) levels, in order. -/
def LEVELS : List Level :=
  [ ⟨"easy-001", Difficulty.easy, 60⟩,
    ⟨"easy-002", Difficulty.easy, 60⟩,
    ⟨"easy-003", Difficulty.easy, 60⟩,
    ⟨"easy-004", Difficulty.easy, 60⟩,
    ⟨"easy-005", Difficulty.easy, 60⟩,
    ⟨"medium-006", Difficulty.medium, 70⟩,
    ⟨"medium-007", Difficulty.medium, 70⟩,
    ⟨"medium-008", Difficulty.medium, 70⟩,
    ⟨"medium-009", Difficulty.medium, 70⟩,
    ⟨"medium-010", Difficulty.medium, 70⟩,
    ⟨"hard-011", Difficulty.hard, 80⟩,
    ⟨"hard-012", Difficulty.hard, 80⟩,
    ⟨"hard-013", Difficulty.hard, 80⟩,
    ⟨"hard-014", Difficulty.hard, 80⟩,
    ⟨"hard-015", Difficulty.hard, 80⟩,
    ⟨"expert-016", Difficulty.expert, 85⟩,
    ⟨"expert-017", Difficulty.expert, 85⟩,
    ⟨"expert-018", Difficulty.expert, 85⟩,
    ⟨"expert-019", Difficulty.expert, 85⟩,
    ⟨"expert-020", Difficulty.expert, 85⟩ ]

/-- Per-level progress record (`LevelProgress` in
`src/features/levels/types.ts`).  `lastPlayedAt` is an ISO timestamp
string in the source; the timestamp value is an input here. -/
structure LevelProgress where
  levelId : String
  isUnlocked : Bool
  bestScore : Int
  attempts : Nat
  completed : Bool
  lastPlayedAt : Option String
deriving DecidableEq, Repr

/-- The game store's state (`GameState` in `src/features/levels/types.ts`
plus the store defaults in `src/features/game/store.ts`).  `levelProgress`
is a JavaScript record keyed by level id; a missing key is `none`. -/
structure GameStoreState where
  currentLives : Int
  maxLives : Int
  levelProgress : String → Option LevelProgress
  totalScore : Int
  achievements : List String

/-- `createDefaultProgress` from `src/features/game/store.ts`: every level
gets a fresh record, only the first level (index 0) unlocked.  The source
builds the record with `forEach`; since level ids are distinct this is the
same as locating the level's index by id. -/
def createDefaultProgress : String → Option LevelProgress := fun k =>
  match LEVELS.findIdx? (fun l => l.id = k) with
  | some i => some ⟨k, i = 0, 0, 0, false, none⟩
  | none => none

/-- The store's initial state (`src/features/game/store.ts`):
3 of 3 lives, default progress, zero total score, no achievements. -/
def initialGameStoreState : GameStoreState :=
  { currentLives := 3
    maxLives := 3
    levelProgress := createDefaultProgress
    totalScore := 0
    achievements := [] }

/-- In the source, unlocking the next level spreads
`state.levelProgress[nextLevel.id]` with `isUnlocked: true`.  If that entry
were absent the spread of `undefined` would yield an object holding only
`isUnlocked`; that degenerate case (unreachable with the shipped data,
where every level id is seeded by `createDefaultProgress`) is modelled by
this placeholder record. -/
def spreadAbsent (levelId : String) : LevelProgress :=
  ⟨levelId, true, 0, 0, false, none⟩

/-- `updateLevelProgress` from `src/features/game/store.ts`.  Returns
`none` when the source would throw: reading `bestScore` of an absent
`currentProgress`, or the non-null assertion `LEVELS.find(...)!` failing.
`now` stands for `new Date().toISOString()`.  JavaScript object-spread
gives the later key the final word, so the next-level unlock entry is
checked before the `levelId` entry. -/
def updateLevelProgress (now : String) (st : GameStoreState)
    (levelId : String) (score : Int) : Option GameStoreState :=
  match st.levelProgress levelId, LEVELS.find? (fun l => l.id = levelId) with
  | some currentProgress, some lvl =>
    let isNewBest := score > currentProgress.bestScore
    let isCompleted := score ≥ lvl.passingScore
    let currentIndex := LEVELS.findIdx (fun l => l.id = levelId)
    let nextLevel? := LEVELS.get? (currentIndex + 1)
    let updatedEntry : LevelProgress :=
      { currentProgress with
        bestScore := max currentProgress.bestScore score
        attempts := currentProgress.attempts + 1
        completed := isCompleted || currentProgress.completed
        lastPlayedAt := some now }
    let unlockEntry : String → LevelProgress := fun nid =>
      match st.levelProgress nid with
      | some e => { e with isUnlocked := true }
      | none => spreadAbsent nid
    some
      { st with
        levelProgress := fun k =>
          if isCompleted ∧ (nextLevel?.map Level.id) = some k then
            some (unlockEntry k)
          else if k = levelId then
            some updatedEntry
          else
            st.levelProgress k
        totalScore :=
          if isNewBest then st.totalScore + (score - currentProgress.bestScore)
          else st.totalScore }
  | _, _ => none

/-- `loseLife` from `src/features/game/store.ts`:
`currentLives := Math.max(0, currentLives - 1)`. -/
def loseLife (st : GameStoreState) : GameStoreState :=
  { st with currentLives := max 0 (st.currentLives - 1) }

example :
    ((updateLevelProgress "t" initialGameStoreState "easy-001" 70).map
      (fun st => (st.levelProgress "easy-002").map LevelProgress.isUnlocked)) =
    some (some true) := by decide

example :
    ((updateLevelProgress "t" initialGameStoreState "easy-001" 50).map
      (fun st => (st.levelProgress "easy-002").map LevelProgress.isUnlocked)) =
    some (some false) := by decide

example : (loseLife initialGameStoreState).currentLives = 2 := by decide
example : (loseLife (loseLife (loseLife (loseLife initialGameStoreState)))).currentLives = 0 := by decide

/-- The component state of the game screen (`src/app/game/[id].tsx`) that
`handleGenerate` reads or writes.  `generatedImage` and `activeTab` are
image-preview UI state never consulted by the scoring path and are
omitted. -/
structure ScreenState where
  prompt : String
  promptError : Option String
  isGenerating : Bool
  showResult : Bool
  lastScore : Int
deriving DecidableEq, Repr

/-- Outcome of the scoring step inside `handleGenerate`'s `try` block: the
external evaluator either returns a raw score or throws.  (In the current
source the raw score is a mock stand-in; the spec (§6, §9) defines the real
evaluator abstractly as `evaluate(...) -> rawScore | Error`, so the outcome
is an input here.) -/
inductive EvalOutcome where
  | ok (rawScore : Int)
  | err
deriving DecidableEq, Repr

/-- The validation test of `handleGenerate`: `!prompt.trim()` is true
exactly when the prompt is empty or whitespace-only, i.e. every character
is whitespace.  (Embedded over the character list because `String.trim`
itself is defined by well-founded recursion on byte positions, which the
kernel cannot evaluate.) -/
def isBlank (s : String) : Bool := s.data.all Char.isWhitespace

/-- Modelled from the spec: `completeLevel` of the game store referenced by
`src/app/game/[id].tsx` is not under `src/`.  Per the spec (§4.3), on
`Passed` the session records the best score and unlocks the next level via
the ProgressStore — i.e. the store's `updateLevelProgress` — and never
touches lives. -/
def completeLevel (now : String) (levelId : String) (score : Int)
    (st : GameStoreState) : GameStoreState :=
  (updateLevelProgress now st levelId score).getD st

/-- `handleGenerate` from `src/app/game/[id].tsx`, the submit path of one
attempt.  Inputs: the level being played, the hint ledger's usage count for
it (read at score-computation time), the evaluator outcome, and the current
timestamp.  Output: the new screen state, the new store state, and whether
the evaluator was invoked at all.  Mirrors the source step by step:
empty-prompt validation, clearing `promptError` and raising `isGenerating`,
the scoring step (sole failure point), penalty application via
`getPenaltyDetails`, `setLastScore`, the pass/fail branch
(`completeLevel` / `loseLife`), the `catch` that surfaces the failure as
`promptError`, and the `finally` that lowers `isGenerating`. -/
def handleGenerate (level : Level) (hintsUsed : Nat) (evalRes : EvalOutcome)
    (now : String) (screen : ScreenState) (store : GameStoreState) :
    ScreenState × GameStoreState × Bool :=
  if isBlank screen.prompt then
    ({ screen with promptError := some "Please enter a prompt" }, store, false)
  else
    let s1 := { screen with promptError := none, isGenerating := true }
    match evalRes with
    | EvalOutcome.err =>
      ({ s1 with
          promptError := some "Something went wrong. Please try again."
          isGenerating := false },
        store, true)
    | EvalOutcome.ok rawScore =>
      let pd := getPenaltyDetails rawScore level.passingScore level.difficulty hintsUsed
      let finalScore := pd.finalScore
      let s2 := { s1 with lastScore := finalScore }
      if finalScore ≥ level.passingScore then
        ({ s2 with showResult := true, isGenerating := false },
          completeLevel now level.id finalScore store, true)
      else
        ({ s2 with isGenerating := false }, loseLife store, true)

/-- Modelled from the spec: submission is only reachable through the
Generate button, and the current `PromptInputView` (not under `src/`;
`handleGenerate` passes it `isLoading={isGenerating}`) disables the button
while a submission is in flight — the spec's single-attempt-at-a-time rule
(§5, Scenario E): a second `submit` while `Submitting` is rejected, not
queued. -/
def submit (level : Level) (hintsUsed : Nat) (evalRes : EvalOutcome)
    (now : String) (screen : ScreenState) (store : GameStoreState) :
    ScreenState × GameStoreState × Bool :=
  if screen.isGenerating then (screen, store, false)
  else handleGenerate level hintsUsed evalRes now screen store

/-- Modelled from the spec: the hint ledger's per-level record
(`HintUsageRecord`, §3) — the `NanoAssistant` implementation is not under
`src/`.  The set of hint indices revealed during the current level attempt,
most recent first.  (Reveal timestamps carried by the source record play no
role in any verified property and are omitted.) -/
structure HintRecord where
  revealed : List Nat
deriving DecidableEq, Repr

/-- Modelled from the spec: `reset(levelId)` clears all revealed-hint state
for the attempt. -/
def HintRecord.reset : HintRecord := ⟨[]⟩

/-- Modelled from the spec: the search for "the next undisclosed hint index
... in ascending order (0-based)": the smallest index in `[s, s + fuel)`
not yet revealed. -/
def searchFrom (revealed : List Nat) : Nat → Nat → Option Nat
  | _, 0 => none
  | s, fuel + 1 => if s ∈ revealed then searchFrom revealed (s + 1) fuel else some s

/-- Modelled from the spec: the first hint index among `0 .. total - 1` not
yet revealed, or `none` when every hint has been revealed. -/
def nextUndisclosed (revealed : List Nat) (total : Nat) : Option Nat :=
  searchFrom revealed 0 total

/-- Modelled from the spec: `revealNext(levelId) -> hintIndex | Empty`
(§4.1) — returns the next undisclosed hint index in ascending order and
marks it revealed, or signals "no more hints" leaving the record
untouched.  `total` is the level's hint count. -/
def revealNext (total : Nat) (r : HintRecord) : Option Nat × HintRecord :=
  match nextUndisclosed r.revealed total with
  | some i => (some i, ⟨i :: r.revealed⟩)
  | none => (none, r)

/-- Modelled from the spec: `usageCount(levelId)` — the number of hints
revealed so far in the attempt. -/
def usageCount (r : HintRecord) : Nat := r.revealed.length

/-- The ledger record after `n` successive `revealNext` calls on a level
with `total` hints, starting from the reset (empty) record. -/
def recordAfter (total : Nat) : Nat → HintRecord
  | 0 => HintRecord.reset
  | n + 1 => (revealNext total (recordAfter total n)).2

/-- The index returned by the `(n+1)`-st `revealNext` call (0-indexed call
number `n`) on a level with `total` hints, starting from the reset
record. -/
def nthReveal (total n : Nat) : Option Nat :=
  (revealNext total (recordAfter total n)).1

example : (List.range 5).map (nthReveal 3) =
    [some 0, some 1, some 2, none, none] := by decide
example : usageCount (recordAfter 3 5) = 3 := by decide
example : recordAfter 3 5 = recordAfter 3 3 := by decide

/-- `[k-1, k-2, ..., 0]`: the revealed-index list reached after `k`
successful reveals (proof device for the ledger lemmas). -/
def downFrom : Nat → List Nat
  | 0 => []
  | k + 1 => k :: downFrom k

/-! ## Theorems -/

lemma penaltyPerHintFor_pos (d : Difficulty) : 0 < penaltyPerHintFor d := by
  cases d <;> decide

/-- C1: for every rawScore in [0,100], every difficulty, and every
hintsUsed ≥ 0 (a `Nat` here), the penalty computation yields
`penaltyPoints = min(hintsUsed * penaltyPerHint, rawScore)` and
`finalScore = clamp(rawScore - penaltyPoints, 0, 100)`, so `finalScore`
is always in [0,100] and `finalScore ≤ rawScore`. -/
theorem penalty_breakdown_bounds (rawScore passingScore : Int)
    (difficulty : Difficulty) (hintsUsed : Nat)
    (h0 : 0 ≤ rawScore) (h100 : rawScore ≤ 100) :
    (getPenaltyDetails rawScore passingScore difficulty hintsUsed).penaltyPoints =
      min ((hintsUsed : Int) * penaltyPerHintFor difficulty) rawScore ∧
    (getPenaltyDetails rawScore passingScore difficulty hintsUsed).finalScore =
      max 0 (min 100 (rawScore -
        (getPenaltyDetails rawScore passingScore difficulty hintsUsed).penaltyPoints)) ∧
    0 ≤ (getPenaltyDetails rawScore passingScore difficulty hintsUsed).finalScore ∧
    (getPenaltyDetails rawScore passingScore difficulty hintsUsed).finalScore ≤ 100 ∧
    (getPenaltyDetails rawScore passingScore difficulty hintsUsed).finalScore ≤ rawScore := by
  have hpph : 0 < penaltyPerHintFor difficulty := penaltyPerHintFor_pos difficulty
  have hmul : 0 ≤ (hintsUsed : Int) * penaltyPerHintFor difficulty :=
    mul_nonneg (Int.natCast_nonneg hintsUsed) (le_of_lt hpph)
  refine ⟨rfl, rfl, ?_, ?_, ?_⟩ <;>
    simp only [getPenaltyDetails] <;> omega

/-- Witness for C1 at rawScore 90, easy difficulty, 2 hints used. -/
theorem penalty_breakdown_bounds_witness :
    0 ≤ (getPenaltyDetails 90 60 Difficulty.easy 2).finalScore ∧
    (getPenaltyDetails 90 60 Difficulty.easy 2).finalScore ≤ 100 ∧
    (getPenaltyDetails 90 60 Difficulty.easy 2).finalScore ≤ 90 :=
  ⟨(penalty_breakdown_bounds 90 60 Difficulty.easy 2 (by decide) (by decide)).2.2.1,
   (penalty_breakdown_bounds 90 60 Difficulty.easy 2 (by decide) (by decide)).2.2.2.1,
   (penalty_breakdown_bounds 90 60 Difficulty.easy 2 (by decide) (by decide)).2.2.2.2⟩

/-- C4: with zero hints used the penalty computation is the identity:
for every rawScore in [0,100] and every difficulty,
`finalScore = rawScore` exactly. -/
theorem zero_hints_score_identity (rawScore passingScore : Int)
    (difficulty : Difficulty)
    (h0 : 0 ≤ rawScore) (h100 : rawScore ≤ 100) :
    (getPenaltyDetails rawScore passingScore difficulty 0).finalScore = rawScore := by
  simp only [getPenaltyDetails, Nat.cast_zero, zero_mul]
  omega

/-- Witness for C4 at rawScore 42, hard difficulty. -/
theorem zero_hints_score_identity_witness :
    (getPenaltyDetails 42 80 Difficulty.hard 0).finalScore = 42 :=
  zero_hints_score_identity 42 80 Difficulty.hard (by decide) (by decide)

/-- C2: whenever the hint penalty drops the final score below the passing
score — even though the raw score reached it — the attempt is failed:
`attemptPassed` is `false`.  (Scenario D, rawScore 85 ≥ passingScore 75
with finalScore 69, is the witness.) -/
theorem hint_penalty_fails_attempt (rawScore passingScore : Int)
    (difficulty : Difficulty) (hintsUsed : Nat)
    (hge : passingScore ≤ rawScore)
    (hlt : (getPenaltyDetails rawScore passingScore difficulty hintsUsed).finalScore <
      passingScore) :
    attemptPassed
      (getPenaltyDetails rawScore passingScore difficulty hintsUsed).finalScore
      passingScore = false := by
  simp only [attemptPassed, ge_iff_le, decide_eq_false_iff_not, not_le]
  exact hlt

/-- Witness for C2: Scenario D — rawScore 85, passingScore 75, easy
difficulty (penaltyPerHint 8), 2 hints used gives finalScore 69 and a
failed attempt. -/
theorem hint_penalty_fails_attempt_witness :
    (getPenaltyDetails 85 75 Difficulty.easy 2).finalScore = 69 ∧
    attemptPassed (getPenaltyDetails 85 75 Difficulty.easy 2).finalScore 75 = false :=
  ⟨by decide,
   hint_penalty_fails_attempt 85 75 Difficulty.easy 2 (by decide) (by decide)⟩

/-- C7: an empty or whitespace-only prompt is rejected before anything
else happens: the validation error is surfaced as `promptError`, the
evaluator is not invoked (the `Bool` component is `false`), and neither
the store (lives, progress, ledger) nor any other screen state changes. -/
theorem empty_prompt_rejected_locally (level : Level) (hintsUsed : Nat)
    (evalRes : EvalOutcome) (now : String) (screen : ScreenState)
    (store : GameStoreState) (h : isBlank screen.prompt = true) :
    handleGenerate level hintsUsed evalRes now screen store =
      ({ screen with promptError := some "Please enter a prompt" }, store, false) := by
  simp [handleGenerate, h]

/-- Witness for C7 at a whitespace-only prompt. -/
theorem empty_prompt_rejected_locally_witness :
    isBlank " " = true ∧
    handleGenerate ⟨"easy-001", Difficulty.easy, 60⟩ 0 (EvalOutcome.ok 90) "t"
        ⟨" ", none, false, false, 0⟩ initialGameStoreState =
      (⟨" ", some "Please enter a prompt", false, false, 0⟩,
        initialGameStoreState, false) :=
  ⟨by decide,
   empty_prompt_rejected_locally ⟨"easy-001", Difficulty.easy, 60⟩ 0
     (EvalOutcome.ok 90) "t" ⟨" ", none, false, false, 0⟩ initialGameStoreState
     (by decide)⟩

/-- C6: when the evaluator call throws, the catch path runs: the failure
is surfaced as `promptError` (not coerced to a score of 0 — `lastScore`
is untouched), `isGenerating` is lowered again (retryable state), and the
store is returned unchanged: no life deducted, no progress recorded. -/
theorem evaluator_failure_deducts_nothing (level : Level) (hintsUsed : Nat)
    (now : String) (screen : ScreenState) (store : GameStoreState)
    (h : isBlank screen.prompt = false) :
    handleGenerate level hintsUsed EvalOutcome.err now screen store =
      ({ screen with
          promptError := some "Something went wrong. Please try again."
          isGenerating := false },
        store, true) := by
  simp [handleGenerate, h]

/-- Witness for C6 at a non-blank prompt. -/
theorem evaluator_failure_deducts_nothing_witness :
    isBlank "hello" = false ∧
    handleGenerate ⟨"easy-001", Difficulty.easy, 60⟩ 1 EvalOutcome.err "t"
        ⟨"hello", none, false, false, 55⟩ initialGameStoreState =
      (⟨"hello", some "Something went wrong. Please try again.", false, false, 55⟩,
        initialGameStoreState, true) :=
  ⟨by decide,
   evaluator_failure_deducts_nothing ⟨"easy-001", Difficulty.easy, 60⟩ 1 "t"
     ⟨"hello", none, false, false, 55⟩ initialGameStoreState (by decide)⟩

/-- C8: a submit issued while a submission is already in flight
(`isGenerating`) is rejected outright: the state is returned untouched
(in particular no life can be deducted twice) and the evaluator is not
invoked (the `Bool` component is `false`). -/
theorem second_submit_while_generating_rejected (level : Level)
    (hintsUsed : Nat) (evalRes : EvalOutcome) (now : String)
    (screen : ScreenState) (store : GameStoreState)
    (h : screen.isGenerating = true) :
    submit level hintsUsed evalRes now screen store = (screen, store, false) := by
  simp [submit, h]

/-- Witness for C8 with a submission in flight. -/
theorem second_submit_while_generating_rejected_witness :
    (ScreenState.mk "x" none true false 0).isGenerating = true ∧
    submit ⟨"easy-001", Difficulty.easy, 60⟩ 0 (EvalOutcome.ok 90) "t"
        ⟨"x", none, true, false, 0⟩ initialGameStoreState =
      (⟨"x", none, true, false, 0⟩, initialGameStoreState, false) :=
  ⟨by decide,
   second_submit_while_generating_rejected ⟨"easy-001", Difficulty.easy, 60⟩ 0
     (EvalOutcome.ok 90) "t" ⟨"x", none, true, false, 0⟩ initialGameStoreState
     (by decide)⟩

lemma updateLevelProgress_preserves (now : String) (st : GameStoreState)
    (levelId : String) (score : Int) (st' : GameStoreState)
    (h : updateLevelProgress now st levelId score = some st') :
    st'.currentLives = st.currentLives ∧ st'.maxLives = st.maxLives ∧
    st'.achievements = st.achievements := by
  cases hcp : st.levelProgress levelId with
  | none => simp [updateLevelProgress, hcp] at h
  | some cp =>
    cases hlvl : LEVELS.find? (fun l => l.id = levelId) with
    | none => simp [updateLevelProgress, hcp, hlvl] at h
    | some lvl =>
      simp only [updateLevelProgress, hcp, hlvl, Option.some.injEq] at h
      subst h
      exact ⟨rfl, rfl, rfl⟩

lemma completeLevel_preserves_lives (now levelId : String) (score : Int)
    (st : GameStoreState) :
    (completeLevel now levelId score st).currentLives = st.currentLives ∧
    (completeLevel now levelId score st).maxLives = st.maxLives := by
  unfold completeLevel
  cases h : updateLevelProgress now st levelId score with
  | none => exact ⟨rfl, rfl⟩
  | some st' =>
    obtain ⟨h1, h2, _⟩ := updateLevelProgress_preserves now st levelId score st' h
    exact ⟨h1, h2⟩

lemma handleGenerate_ok_pass (level : Level) (hintsUsed : Nat) (rawScore : Int)
    (now : String) (screen : ScreenState) (store : GameStoreState)
    (h : isBlank screen.prompt = false)
    (hp : level.passingScore ≤
      (getPenaltyDetails rawScore level.passingScore level.difficulty hintsUsed).finalScore) :
    handleGenerate level hintsUsed (EvalOutcome.ok rawScore) now screen store =
      ({ screen with
          promptError := none
          isGenerating := false
          lastScore :=
            (getPenaltyDetails rawScore level.passingScore level.difficulty hintsUsed).finalScore
          showResult := true },
        completeLevel now level.id
          (getPenaltyDetails rawScore level.passingScore level.difficulty hintsUsed).finalScore
          store,
        true) := by
  simp [handleGenerate, h, ge_iff_le, hp]

lemma handleGenerate_ok_fail (level : Level) (hintsUsed : Nat) (rawScore : Int)
    (now : String) (screen : ScreenState) (store : GameStoreState)
    (h : isBlank screen.prompt = false)
    (hp : ¬ level.passingScore ≤
      (getPenaltyDetails rawScore level.passingScore level.difficulty hintsUsed).finalScore) :
    handleGenerate level hintsUsed (EvalOutcome.ok rawScore) now screen store =
      ({ screen with
          promptError := none
          isGenerating := false
          lastScore :=
            (getPenaltyDetails rawScore level.passingScore level.difficulty hintsUsed).finalScore },
        loseLife store,
        true) := by
  simp [handleGenerate, h, ge_iff_le, hp]

/-- C3: on a scored attempt the pass/fail decision is exactly
`finalScore ≥ passingScore`: on pass the store goes through
`completeLevel` (lives untouched, result shown), on fail exactly one life
is deducted via `loseLife`; and `loseLife` floors at 0 — deducting at
`currentLives = 0` leaves it 0 and never touches `maxLives`. -/
theorem pass_fail_decision_and_lives (level : Level) (hintsUsed : Nat)
    (rawScore : Int) (now : String) (screen : ScreenState)
    (store st : GameStoreState) (h : isBlank screen.prompt = false) :
    ((handleGenerate level hintsUsed (EvalOutcome.ok rawScore) now screen store).2.1.currentLives =
      if level.passingScore ≤
          (getPenaltyDetails rawScore level.passingScore level.difficulty hintsUsed).finalScore
        then store.currentLives
        else max 0 (store.currentLives - 1)) ∧
    (handleGenerate level hintsUsed (EvalOutcome.ok rawScore) now screen store).2.1.maxLives =
      store.maxLives ∧
    (level.passingScore ≤
        (getPenaltyDetails rawScore level.passingScore level.difficulty hintsUsed).finalScore →
      (handleGenerate level hintsUsed (EvalOutcome.ok rawScore) now screen store).2.1 =
        completeLevel now level.id
          (getPenaltyDetails rawScore level.passingScore level.difficulty hintsUsed).finalScore
          store ∧
      (handleGenerate level hintsUsed (EvalOutcome.ok rawScore) now screen store).1.showResult =
        true) ∧
    ((getPenaltyDetails rawScore level.passingScore level.difficulty hintsUsed).finalScore <
        level.passingScore →
      (handleGenerate level hintsUsed (EvalOutcome.ok rawScore) now screen store).2.1 =
        loseLife store) ∧
    (loseLife st).currentLives = max 0 (st.currentLives - 1) ∧
    0 ≤ (loseLife st).currentLives ∧
    (loseLife st).maxLives = st.maxLives ∧
    (st.currentLives = 0 → (loseLife st).currentLives = 0) := by
  have hll : (loseLife st).currentLives = max 0 (st.currentLives - 1) := rfl
  have hfacts : (loseLife st).currentLives = max 0 (st.currentLives - 1) ∧
      0 ≤ (loseLife st).currentLives ∧ (loseLife st).maxLives = st.maxLives ∧
      (st.currentLives = 0 → (loseLife st).currentLives = 0) := by
    refine ⟨rfl, ?_, rfl, fun h0 => ?_⟩
    · rw [hll]; exact le_max_left 0 _
    · rw [hll, h0]; decide
  by_cases hp : level.passingScore ≤
      (getPenaltyDetails rawScore level.passingScore level.difficulty hintsUsed).finalScore
  · rw [handleGenerate_ok_pass level hintsUsed rawScore now screen store h hp]
    have hc := completeLevel_preserves_lives now level.id
      (getPenaltyDetails rawScore level.passingScore level.difficulty hintsUsed).finalScore store
    exact ⟨by rw [if_pos hp]; exact hc.1, hc.2,
      fun _ => ⟨rfl, rfl⟩, fun hlt => absurd hp (not_le.mpr hlt), hfacts⟩
  · rw [handleGenerate_ok_fail level hintsUsed rawScore now screen store h hp]
    exact ⟨by rw [if_neg hp]; rfl, rfl,
      fun hge => absurd hge hp, fun _ => rfl, hfacts⟩

/-- Witness for C3: easy level, raw score 90, no hints — the attempt
passes and the initial 3 lives survive; a `loseLife` on the initial state
leaves 2 lives and `maxLives` 3. -/
theorem pass_fail_decision_and_lives_witness :
    (handleGenerate ⟨"easy-001", Difficulty.easy, 60⟩ 0 (EvalOutcome.ok 90) "t"
        ⟨"a", none, false, false, 0⟩ initialGameStoreState).2.1.currentLives = 3 ∧
    (loseLife initialGameStoreState).currentLives = 2 ∧
    (loseLife initialGameStoreState).maxLives = 3 :=
  ⟨by
    have hmain := (pass_fail_decision_and_lives ⟨"easy-001", Difficulty.easy, 60⟩ 0 90 "t"
      ⟨"a", none, false, false, 0⟩ initialGameStoreState initialGameStoreState
      (by decide)).1
    rw [hmain]; decide,
   by
    have hmain := (pass_fail_decision_and_lives ⟨"easy-001", Difficulty.easy, 60⟩ 0 90 "t"
      ⟨"a", none, false, false, 0⟩ initialGameStoreState initialGameStoreState
      (by decide)).2.2.2.2.1
    rw [hmain]; decide,
   (pass_fail_decision_and_lives ⟨"easy-001", Difficulty.easy, 60⟩ 0 90 "t"
      ⟨"a", none, false, false, 0⟩ initialGameStoreState initialGameStoreState
      (by decide)).2.2.2.2.2.2.1⟩

lemma mem_downFrom (i k : Nat) : i ∈ downFrom k ↔ i < k := by
  induction k with
  | zero => simp [downFrom]
  | succ k ih =>
    simp only [downFrom, List.mem_cons, ih]
    omega

lemma length_downFrom (k : Nat) : (downFrom k).length = k := by
  induction k with
  | zero => rfl
  | succ k ih => simp [downFrom, ih]

lemma searchFrom_spec (revealed : List Nat) (k : Nat)
    (hmem : ∀ i, i ∈ revealed ↔ i < k) :
    ∀ fuel s, s ≤ k →
      searchFrom revealed s fuel = if k < s + fuel then some k else none := by
  intro fuel
  induction fuel with
  | zero =>
    intro s hs
    rw [searchFrom, if_neg (by omega)]
  | succ fuel ih =>
    intro s hs
    rw [searchFrom]
    by_cases hsk : s < k
    · rw [if_pos ((hmem s).mpr hsk), ih (s + 1) hsk]
      have harith : s + 1 + fuel = s + (fuel + 1) := by omega
      rw [harith]
    · have hek : s = k := Nat.le_antisymm hs (Nat.not_lt.mp hsk)
      subst hek
      rw [if_neg (by simpa using (hmem s).not.mpr (lt_irrefl s)),
        if_pos (by omega)]

lemma nextUndisclosed_downFrom (k total : Nat) :
    nextUndisclosed (downFrom k) total = if k < total then some k else none := by
  have h := searchFrom_spec (downFrom k) k (fun i => mem_downFrom i k)
    total 0 (Nat.zero_le k)
  simpa [nextUndisclosed] using h

lemma recordAfter_eq (total n : Nat) :
    recordAfter total n = ⟨downFrom (min n total)⟩ := by
  induction n with
  | zero => simp [recordAfter, HintRecord.reset, downFrom]
  | succ n ih =>
    rw [recordAfter, ih]
    by_cases h : n < total
    · have hmin : min n total = n := Nat.min_eq_left (Nat.le_of_lt h)
      have hmin' : min (n + 1) total = n + 1 := Nat.min_eq_left h
      simp [revealNext, nextUndisclosed_downFrom, hmin, hmin', h, downFrom]
    · have hmin : min n total = total := Nat.min_eq_right (Nat.not_lt.mp h)
      have hmin' : min (n + 1) total = total := Nat.min_eq_right (by omega)
      simp [revealNext, nextUndisclosed_downFrom, hmin, hmin']

/-- C9: starting from a reset ledger record, the `(n+1)`-st `revealNext`
call returns hint index `n` while hints remain and the "no more hints"
signal (`none`) afterwards — so successive calls return 0, 1, 2, … in
ascending order and never repeat an index; the usage count after `n` calls
is `min n total`; and once all `total` hints are revealed, further calls
leave the record (hence the usage) unchanged. -/
theorem revealNext_stream_spec (total n : Nat) :
    nthReveal total n = (if n < total then some n else none) ∧
    usageCount (recordAfter total n) = min n total ∧
    recordAfter total (total + n) = recordAfter total total := by
  refine ⟨?_, ?_, ?_⟩
  · rw [nthReveal, recordAfter_eq]
    by_cases h : n < total
    · have hmin : min n total = n := Nat.min_eq_left (Nat.le_of_lt h)
      simp [revealNext, nextUndisclosed_downFrom, hmin, h]
    · have hmin : min n total = total := Nat.min_eq_right (Nat.not_lt.mp h)
      simp [revealNext, nextUndisclosed_downFrom, hmin, h]
  · rw [recordAfter_eq, usageCount, length_downFrom]
  · rw [recordAfter_eq, recordAfter_eq]
    have harith : min (total + n) total = min total total := by omega
    rw [harith]

lemma LEVELS_ids_nodup : (LEVELS.map Level.id).Nodup := by decide

/-- The level that sits right after the one found by id carries a
different id (the shipped level ids are pairwise distinct). -/
lemma next_level_id_ne (levelId : String) (nl : Level)
    (hget : LEVELS.get? (LEVELS.findIdx (fun l => l.id = levelId) + 1) = some nl) :
    nl.id ≠ levelId := by
  intro hcon
  obtain ⟨h1, hnl⟩ := List.get?_eq_some.mp hget
  have hilt : LEVELS.findIdx (fun l => l.id = levelId) < LEVELS.length :=
    Nat.lt_of_succ_lt h1
  have hp := @List.findIdx_getElem _ (fun l => decide (l.id = levelId)) LEVELS hilt
  have hid := of_decide_eq_true hp
  have hlen : (LEVELS.map Level.id).length = LEVELS.length := by simp
  have hi1 : LEVELS.findIdx (fun l => l.id = levelId) < (LEVELS.map Level.id).length := by
    omega
  have hi2 : LEVELS.findIdx (fun l => l.id = levelId) + 1 < (LEVELS.map Level.id).length := by
    omega
  have e1 : (LEVELS.map Level.id).get ⟨LEVELS.findIdx (fun l => l.id = levelId), hi1⟩ =
      levelId := by
    rw [List.get_map]
    exact hid
  have e2 : (LEVELS.map Level.id).get ⟨LEVELS.findIdx (fun l => l.id = levelId) + 1, hi2⟩ =
      nl.id := by
    rw [List.get_map]
    exact congrArg Level.id hnl
  have e3 : (LEVELS.map Level.id).get ⟨LEVELS.findIdx (fun l => l.id = levelId), hi1⟩ =
      (LEVELS.map Level.id).get ⟨LEVELS.findIdx (fun l => l.id = levelId) + 1, hi2⟩ := by
    rw [e1, e2, hcon]
  have e4 := congrArg Fin.val ((List.Nodup.get_inj_iff LEVELS_ids_nodup).mp e3)
  simp at e4

/-- C5: recording an attempt for a valid level sets that level's
`bestScore` to `max(old, score)`, bumps `attempts` by one, sets
`completed` to `(score ≥ passingScore) || old completed` — so a completed
flag is monotone and never reset by a later lower score — and the next
level in sequence ends up unlocked exactly when `score ≥ passingScore`
(otherwise its entry is untouched). -/
theorem updateLevelProgress_records_attempt (now : String)
    (st : GameStoreState) (levelId : String) (score : Int)
    (cp : LevelProgress) (lvl : Level)
    (hcp : st.levelProgress levelId = some cp)
    (hlvl : LEVELS.find? (fun l => l.id = levelId) = some lvl) :
    (updateLevelProgress now st levelId score).map
        (fun s => s.levelProgress levelId) =
      some (some { cp with
        bestScore := max cp.bestScore score
        attempts := cp.attempts + 1
        completed := decide (score ≥ lvl.passingScore) || cp.completed
        lastPlayedAt := some now }) ∧
    ∀ nl np, LEVELS.get? (LEVELS.findIdx (fun l => l.id = levelId) + 1) = some nl →
      st.levelProgress nl.id = some np →
      (updateLevelProgress now st levelId score).map
          (fun s => s.levelProgress nl.id) =
        some (some (if score ≥ lvl.passingScore then { np with isUnlocked := true }
          else np)) := by
  constructor
  · cases hnext : LEVELS.get? (LEVELS.findIdx (fun l => l.id = levelId) + 1) with
    | none =>
      rw [List.get?_eq_getElem?] at hnext
      simp [updateLevelProgress, hcp, hlvl, hnext]
    | some nl =>
      have hne := next_level_id_ne levelId nl hnext
      rw [List.get?_eq_getElem?] at hnext
      simp [updateLevelProgress, hcp, hlvl, hnext, hne]
  · intro nl np hget hnp
    have hne := next_level_id_ne levelId nl hget
    rw [List.get?_eq_getElem?] at hget
    by_cases hpass : lvl.passingScore ≤ score
    · simp [updateLevelProgress, hcp, hlvl, hget, hnp, hpass, hne, ge_iff_le]
    · simp [updateLevelProgress, hcp, hlvl, hget, hnp, hpass, hne, ge_iff_le]

/-- Witness for C5: a passing attempt (score 70 ≥ 60) on the first level
updates its entry to best 70, one attempt, completed, and unlocks
`easy-002`. -/
theorem updateLevelProgress_records_attempt_witness :
    (updateLevelProgress "t" initialGameStoreState "easy-001" 70).map
        (fun s => s.levelProgress "easy-001") =
      some (some ⟨"easy-001", true, 70, 1, true, some "t"⟩) ∧
    (updateLevelProgress "t" initialGameStoreState "easy-001" 70).map
        (fun s => s.levelProgress "easy-002") =
      some (some ⟨"easy-002", true, 0, 0, false, none⟩) :=
  ⟨(updateLevelProgress_records_attempt "t" initialGameStoreState "easy-001" 70
      ⟨"easy-001", true, 0, 0, false, none⟩ ⟨"easy-001", Difficulty.easy, 60⟩
      (by decide) (by decide)).1,
   (updateLevelProgress_records_attempt "t" initialGameStoreState "easy-001" 70
      ⟨"easy-001", true, 0, 0, false, none⟩ ⟨"easy-001", Difficulty.easy, 60⟩
      (by decide) (by decide)).2
     ⟨"easy-002", Difficulty.easy, 60⟩ ⟨"easy-002", false, 0, 0, false, none⟩
     (by decide) (by decide)⟩

/-- C10: recording an attempt touches nothing but the attempted level's
entry, possibly the immediate successor's entry, and `totalScore`:
`currentLives`, `maxLives` and `achievements` are unchanged, and the
stored progress of every other level is unchanged. -/
theorem updateLevelProgress_frame (now : String) (st : GameStoreState)
    (levelId : String) (score : Int) (cp : LevelProgress) (lvl : Level)
    (hcp : st.levelProgress levelId = some cp)
    (hlvl : LEVELS.find? (fun l => l.id = levelId) = some lvl) :
    (updateLevelProgress now st levelId score).map GameStoreState.currentLives =
      some st.currentLives ∧
    (updateLevelProgress now st levelId score).map GameStoreState.maxLives =
      some st.maxLives ∧
    (updateLevelProgress now st levelId score).map GameStoreState.achievements =
      some st.achievements ∧
    ∀ k, k ≠ levelId →
      (LEVELS.get? (LEVELS.findIdx (fun l => l.id = levelId) + 1)).map Level.id ≠
        some k →
      (updateLevelProgress now st levelId score).map (fun s => s.levelProgress k) =
        some (st.levelProgress k) := by
  refine ⟨?_, ?_, ?_, ?_⟩
  · simp [updateLevelProgress, hcp, hlvl]
  · simp [updateLevelProgress, hcp, hlvl]
  · simp [updateLevelProgress, hcp, hlvl]
  · intro k hk hnk
    cases hnext : LEVELS.get? (LEVELS.findIdx (fun l => l.id = levelId) + 1) with
    | none =>
      rw [List.get?_eq_getElem?] at hnext
      simp [updateLevelProgress, hcp, hlvl, hnext, hk]
    | some nl =>
      have hnlk : nl.id ≠ k := by
        intro hcon
        rw [hnext] at hnk
        exact hnk (by simp [Option.map, hcon])
      rw [List.get?_eq_getElem?] at hnext
      simp [updateLevelProgress, hcp, hlvl, hnext, hk, hnlk]

/-- Witness for C10: a passing attempt on `easy-001` leaves lives,
max lives, achievements and the progress entry of the distant level
`hard-011` unchanged. -/
theorem updateLevelProgress_frame_witness :
    (updateLevelProgress "t" initialGameStoreState "easy-001" 70).map
      GameStoreState.currentLives = some 3 ∧
    (updateLevelProgress "t" initialGameStoreState "easy-001" 70).map
      GameStoreState.maxLives = some 3 ∧
    (updateLevelProgress "t" initialGameStoreState "easy-001" 70).map
      GameStoreState.achievements = some [] ∧
    (updateLevelProgress "t" initialGameStoreState "easy-001" 70).map
        (fun s => s.levelProgress "hard-011") =
      some (some ⟨"hard-011", false, 0, 0, false, none⟩) :=
  ⟨(updateLevelProgress_frame "t" initialGameStoreState "easy-001" 70
      ⟨"easy-001", true, 0, 0, false, none⟩ ⟨"easy-001", Difficulty.easy, 60⟩
      (by decide) (by decide)).1,
   (updateLevelProgress_frame "t" initialGameStoreState "easy-001" 70
      ⟨"easy-001", true, 0, 0, false, none⟩ ⟨"easy-001", Difficulty.easy, 60⟩
      (by decide) (by decide)).2.1,
   (updateLevelProgress_frame "t" initialGameStoreState "easy-001" 70
      ⟨"easy-001", true, 0, 0, false, none⟩ ⟨"easy-001", Difficulty.easy, 60⟩
      (by decide) (by decide)).2.2.1,
   (updateLevelProgress_frame "t" initialGameStoreState "easy-001" 70
      ⟨"easy-001", true, 0, 0, false, none⟩ ⟨"easy-001", Difficulty.easy, 60⟩
      (by decide) (by decide)).2.2.2 "hard-011" (by decide) (by decide)⟩
